import Mathlib

/-!
Shallow embedding of the rlox bytecode interpreter: the scanner
(`src/scanner.rs`), the single-pass Pratt compiler (`src/compiler.rs`),
the value model (`src/value/value.rs`, `src/value/function.rs`,
`src/value/native_function.rs`), the chunk format (`src/chunk.rs`) and the
stack VM (`src/vm/vm.rs`, `src/vm/call_frame.rs`), together with theorems
about the embedded code.

Modelling conventions:
* Rust `f64` number payloads are modelled as `Rat` (exact rationals); every
  numeric literal and operation relevant to the theorems below is exact in
  both representations.
* Rust `usize`/`i32` become `Nat`/`Int`; a `usize` subtraction that would
  underflow, or a `Vec` index out of bounds, is a Rust panic and is
  modelled by an explicit `panicked` outcome (never by silent truncation on
  the paths the theorems touch).
* `HashMap<String, Value>` is modelled extensionally as
  `String → Option Value`.
* The system clock read by the native `clock` function is an explicit
  oracle parameter `clock : Nat → Rat` giving the reading observed by the
  n-th invocation.
* Loops and recursion are driven by an explicit fuel parameter; all
  concrete evaluations below use enough fuel, and running out of fuel is a
  distinguished outcome, never mistaken for an answer.
* The compiler's `error_at` prints its message to stderr; the model records
  the printed message text, in order, in `Parser.messages`.
-/

set_option maxRecDepth 100000

namespace RLox

/-- The null sentinel character the scanner appends to the source. -/
def nulChar : Char := Char.ofNat 0

/-- Scanner error causes, from `src/scanner.rs` (`ScannerError`). -/
inductive ScannerError where
  | unexpectedCharacter
  | unterminatedString
  | uninitializedToken
deriving DecidableEq

/-- Token kinds, from `src/scanner.rs` (`TokenType`).  Constructors whose
source name is a Lean keyword carry a `K` suffix. -/
inductive TokenType where
  | leftParen
  | rightParen
  | leftBrace
  | rightBrace
  | comma
  | dot
  | minus
  | plus
  | semicolon
  | slash
  | star
  | bang
  | bangEqual
  | equal
  | equalEqual
  | greater
  | greaterEqual
  | less
  | lessEqual
  | identifier
  | string
  | number
  | and
  | classK
  | elseK
  | falseK
  | forK
  | funK
  | ifK
  | nil
  | or
  | print
  | returnK
  | super
  | this
  | trueK
  | var
  | whileK
  | error (e : ScannerError)
  | eof
deriving DecidableEq

/-- A token, from `src/scanner.rs` (`Token`): kind, start index into the
source, lexeme length (`i32` in the source) and line number. -/
structure Token where
  tokenType : TokenType
  start : Nat
  length : Int
  line : Int
deriving DecidableEq

/-- The scanner state, from `src/scanner.rs` (`Scanner`). -/
structure Scanner where
  source : List Char
  start : Nat
  current : Nat
  line : Int

/-- `Scanner::init`: appends the `'\0'` sentinel to the source. -/
def Scanner.init (source : List Char) : Scanner :=
  { source := source ++ [nulChar], start := 0, current := 0, line := 1 }

/-- `Scanner::is_at_end`: the character at `current` is the sentinel. -/
def Scanner.isAtEnd (s : Scanner) : Bool :=
  s.source.getD s.current nulChar == nulChar

/-- `Scanner::peek`. -/
def Scanner.peek (s : Scanner) : Char :=
  s.source.getD s.current nulChar

/-- `Scanner::peek_next`. -/
def Scanner.peekNext (s : Scanner) : Char :=
  if s.isAtEnd then nulChar else s.source.getD (s.current + 1) nulChar

/-- `Scanner::match_char`. -/
def Scanner.matchChar (s : Scanner) (expected : Char) : Bool × Scanner :=
  if s.isAtEnd then (false, s)
  else if s.peek ≠ expected then (false, s)
  else (true, { s with current := s.current + 1 })

/-- `is_digit` from `src/scanner.rs`. -/
def isDigit (c : Char) : Bool := '0' ≤ c && c ≤ '9'

/-- `is_alpha` from `src/scanner.rs`. -/
def isAlpha (c : Char) : Bool :=
  ('a' ≤ c && c ≤ 'z') || ('A' ≤ c && c ≤ 'Z') || c == '_'

/-- The inner loop of the `'/'` arm of `Scanner::skip_whitespace`: consume a
line comment up to (not including) the newline. -/
def Scanner.skipLineComment : Nat → Scanner → Scanner
  | 0, s => s
  | fuel + 1, s =>
      if ¬ s.isAtEnd ∧ s.peek ≠ '\n' then
        Scanner.skipLineComment fuel { s with current := s.current + 1 }
      else s

/-- `Scanner::skip_whitespace`. -/
def Scanner.skipWhitespace : Nat → Scanner → Scanner
  | 0, s => s
  | fuel + 1, s =>
      if s.isAtEnd then s
      else
        match s.peek with
        | ' ' => Scanner.skipWhitespace fuel { s with current := s.current + 1 }
        | '\r' => Scanner.skipWhitespace fuel { s with current := s.current + 1 }
        | '\t' => Scanner.skipWhitespace fuel { s with current := s.current + 1 }
        | '\n' =>
            Scanner.skipWhitespace fuel
              { s with line := s.line + 1, current := s.current + 1 }
        | '/' =>
            if s.peekNext = '/' then
              Scanner.skipWhitespace fuel (Scanner.skipLineComment (s.source.length + 1) s)
            else s
        | _ => s

/-- `Scanner::make_token`. -/
def Scanner.makeToken (s : Scanner) (tokenType : TokenType) : Token :=
  { tokenType := tokenType
    start := s.start
    length := ((s.current - s.start : Nat) : Int)
    line := s.line }

/-- `Scanner::check_keyword`. -/
def Scanner.checkKeyword (s : Scanner) (start length : Nat) (rest : String)
    (tokenType : TokenType) : TokenType :=
  if (s.current - s.start) ≠ start + length then TokenType.identifier
  else if (((s.source.drop (s.start + start)).take (s.current - (s.start + start))).zip
      rest.data).all (fun p => p.1 == p.2) then tokenType
  else TokenType.identifier

/-- `Scanner::identifier_type`: trie-style keyword recognition. -/
def Scanner.identifierType (s : Scanner) : TokenType :=
  match s.source.getD s.start nulChar with
  | 'a' => s.checkKeyword 1 2 "nd" .and
  | 'c' => s.checkKeyword 1 4 "lass" .classK
  | 'e' => s.checkKeyword 1 3 "lse" .elseK
  | 'i' => s.checkKeyword 1 1 "f" .ifK
  | 'n' => s.checkKeyword 1 2 "il" .nil
  | 'o' => s.checkKeyword 1 1 "r" .or
  | 'p' => s.checkKeyword 1 4 "rint" .print
  | 'r' => s.checkKeyword 1 5 "eturn" .returnK
  | 's' => s.checkKeyword 1 4 "uper" .super
  | 'v' => s.checkKeyword 1 2 "ar" .var
  | 'w' => s.checkKeyword 1 4 "hile" .whileK
  | 'f' =>
      if s.current - s.start > 1 then
        match s.source.getD (s.start + 1) nulChar with
        | 'a' => s.checkKeyword 2 3 "lse" .falseK
        | 'o' => s.checkKeyword 2 1 "r" .forK
        | 'u' => s.checkKeyword 2 1 "n" .funK
        | _ => TokenType.identifier
      else TokenType.identifier
  | 't' =>
      if s.current - s.start > 1 then
        match s.source.getD (s.start + 1) nulChar with
        | 'h' => s.checkKeyword 2 2 "is" .this
        | 'r' => s.checkKeyword 2 2 "ue" .trueK
        | _ => TokenType.identifier
      else TokenType.identifier
  | _ => TokenType.identifier

/-- The body loop of `Scanner::string`. -/
def Scanner.stringLoop : Nat → Scanner → Scanner
  | 0, s => s
  | fuel + 1, s =>
      if ¬ s.isAtEnd ∧ s.peek ≠ '"' then
        Scanner.stringLoop fuel
          (if s.peek = '\n' then { s with line := s.line + 1, current := s.current + 1 }
           else { s with current := s.current + 1 })
      else s

/-- `Scanner::string`. -/
def Scanner.stringLit (s : Scanner) : Scanner × Token :=
  let s := Scanner.stringLoop (s.source.length + 1) s
  if s.isAtEnd then (s, s.makeToken (.error .unterminatedString))
  else
    let s := { s with current := s.current + 1 }
    (s, s.makeToken .string)

/-- A digit-consuming loop used by `Scanner::number`. -/
def Scanner.skipDigits : Nat → Scanner → Scanner
  | 0, s => s
  | fuel + 1, s =>
      if isDigit s.peek then Scanner.skipDigits fuel { s with current := s.current + 1 }
      else s

/-- `Scanner::number`. -/
def Scanner.numberLit (s : Scanner) : Scanner × Token :=
  let s := Scanner.skipDigits (s.source.length + 1) s
  let s :=
    if s.peek = '.' ∧ isDigit s.peekNext then
      Scanner.skipDigits (s.source.length + 1) { s with current := s.current + 1 }
    else s
  (s, s.makeToken .number)

/-- The alphanumeric loop of `Scanner::identifier`. -/
def Scanner.identLoop : Nat → Scanner → Scanner
  | 0, s => s
  | fuel + 1, s =>
      if isAlpha s.peek || isDigit s.peek then
        Scanner.identLoop fuel { s with current := s.current + 1 }
      else s

/-- `Scanner::identifier`. -/
def Scanner.identifierLit (s : Scanner) : Scanner × Token :=
  let s := Scanner.identLoop (s.source.length + 1) s
  (s, s.makeToken s.identifierType)

/-- `Scanner::scan_token`. -/
def Scanner.scanToken (s0 : Scanner) : Scanner × Token :=
  let s := Scanner.skipWhitespace (s0.source.length + 2) s0
  let s := { s with start := s.current }
  if s.isAtEnd then (s, s.makeToken .eof)
  else
    let c := s.source.getD s.current nulChar
    let s := { s with current := s.current + 1 }
    match c with
    | '(' => (s, s.makeToken .leftParen)
    | ')' => (s, s.makeToken .rightParen)
    | '{' => (s, s.makeToken .leftBrace)
    | '}' => (s, s.makeToken .rightBrace)
    | ';' => (s, s.makeToken .semicolon)
    | ',' => (s, s.makeToken .comma)
    | '.' => (s, s.makeToken .dot)
    | '-' => (s, s.makeToken .minus)
    | '+' => (s, s.makeToken .plus)
    | '/' => (s, s.makeToken .slash)
    | '*' => (s, s.makeToken .star)
    | '!' =>
        let (m, s) := s.matchChar '='
        (s, s.makeToken (if m then .bangEqual else .bang))
    | '=' =>
        let (m, s) := s.matchChar '='
        (s, s.makeToken (if m then .equalEqual else .equal))
    | '<' =>
        let (m, s) := s.matchChar '='
        (s, s.makeToken (if m then .lessEqual else .less))
    | '>' =>
        let (m, s) := s.matchChar '='
        (s, s.makeToken (if m then .greaterEqual else .greater))
    | '"' => s.stringLit
    | c =>
        if isDigit c then s.numberLit
        else if isAlpha c then s.identifierLit
        else (s, s.makeToken (.error .unexpectedCharacter))

/-- The VM's instruction codes, from `src/chunk.rs` (`Instruction`). -/
inductive Instruction where
  | opCall (argCount : Nat)
  | opConstant (index : Nat)
  | opNil
  | opTrue
  | opDefineGlobal (index : Nat)
  | opEqual
  | opFalse
  | opGetGlobal (index : Nat)
  | opSetGlobal (index : Nat)
  | opGetLocal (index : Nat)
  | opSetLocal (index : Nat)
  | opGreater
  | opJump (offset : Nat)
  | opJumpIfFalse (offset : Nat)
  | opLess
  | opLoop (offset : Nat)
  | opAdd
  | opSubtract
  | opMultiply
  | opDivide
  | opPop
  | opNot
  | opNegate
  | opPrint
  | opReturn
deriving DecidableEq

/-- Identifies the host function of a `NativeFunction`; the only native
registered by `VM::new` is `clock`. -/
inductive NativeId where
  | clock
deriving DecidableEq

/-- The runtime representation of a native function, from
`src/value/native_function.rs`; the `fn() -> Value` pointer is identified by
a `NativeId`. -/
structure NativeFunctionV where
  arity : Nat
  name : String
  function : NativeId
deriving DecidableEq

/-- A chunk of bytecode over constants of type `α`, from `src/chunk.rs`
(`Chunk`); `α` is instantiated with `Value` below. -/
structure ChunkOf (α : Type) where
  bytecode : List Instruction
  lines : List Int
  constants : List α

/-- The runtime representation of a function over constants of type `α`,
from `src/value/function.rs` (`Function`). -/
structure FuncOf (α : Type) where
  arity : Int
  chunk : ChunkOf α
  name : String

/-- Runtime values, from `src/value/value.rs` (`Value`).  `Rc` payloads are
modelled by their immutable contents; `f64` is modelled as `Rat`. -/
inductive Value where
  | boolean (b : Bool)
  | number (n : Rat)
  | nil
  | string (s : String)
  | function (f : FuncOf Value)
  | nativeFunction (f : NativeFunctionV)

/-- A chunk whose constants are runtime values. -/
abbrev Chunk := ChunkOf Value

/-- The runtime function type. -/
abbrev Func := FuncOf Value

/-- `Chunk::new`. -/
def Chunk.new : Chunk := { bytecode := [], lines := [], constants := [] }

/-- `Chunk::write`: appends one instruction and its parallel line entry. -/
def ChunkOf.write (c : Chunk) (instruction : Instruction) (line : Int) : Chunk :=
  { c with bytecode := c.bytecode ++ [instruction], lines := c.lines ++ [line] }

/-- `Chunk::add_constant`: appends a constant, returning the new chunk and
the constant's index. -/
def ChunkOf.addConstant (c : Chunk) (value : Value) : Chunk × Nat :=
  ({ c with constants := c.constants ++ [value] }, c.constants.length)

/-- `Function::new`. -/
def Func.new : Func := { arity := 0, chunk := Chunk.new, name := "" }

/-- `FunctionType` from `src/value/function.rs`. -/
inductive FunctionType where
  | function
  | script
deriving DecidableEq

/-- `Value::equals` from `src/value/value.rs`: the `_ => false` arm makes
every comparison whose left operand is a `Function` or `NativeFunction`
false. -/
def Value.equals : Value → Value → Bool
  | .boolean b1, v2 =>
      match v2 with
      | .boolean b2 => b1 == b2
      | _ => false
  | .number n1, v2 =>
      match v2 with
      | .number n2 => decide (n1 = n2)
      | _ => false
  | .nil, v2 =>
      match v2 with
      | .nil => true
      | _ => false
  | .string s1, v2 =>
      match v2 with
      | .string s2 => s1 == s2
      | _ => false
  | _, _ => false

/-- `Value::is_string`. -/
def Value.isString : Value → Bool
  | .string _ => true
  | _ => false

/-- `Value::concatenate_strings`; the error payload is never inspected by
the VM, so the model uses `Option`. -/
def Value.concatenateStrings : Value → Value → Option Value
  | .string s1, .string s2 => some (.string (s1 ++ s2))
  | _, _ => none

/-- `binary_arithmetic_op!` from `src/value/value.rs`, specialised to one
arithmetic operator passed as a function. -/
def binaryArithmeticOp (op : Rat → Rat → Rat) : Value → Value → Option Value
  | .number n1, .number n2 => some (.number (op n1 n2))
  | _, _ => none

/-- `binary_boolean_op!` from `src/value/value.rs`. -/
def binaryBooleanOp (op : Rat → Rat → Bool) : Value → Value → Option Value
  | .number n1, .number n2 => some (.boolean (op n1 n2))
  | _, _ => none

/-- `is_falsey` from `src/vm/vm.rs`. -/
def isFalsey : Value → Bool
  | .nil => true
  | .boolean b => !b
  | _ => false

/-- `Chunk::patch_jump`'s action on a chunk (the body of
`CompilerManager::patch_jump` in `src/compiler.rs`): rewrite the jump
instruction at `offset` in place with the now-known forward distance. -/
def ChunkOf.patchJump (c : Chunk) (offset : Nat) : Chunk :=
  let jump := c.bytecode.length - offset - 1
  let instruction :=
    match c.bytecode.getD offset .opReturn with
    | .opJump _ => Instruction.opJump jump
    | .opJumpIfFalse _ => Instruction.opJumpIfFalse jump
    | i => i
  { c with bytecode := c.bytecode.set offset instruction }

/-- Operator precedence levels, from `src/compiler.rs` (`Precedence`). -/
inductive Precedence where
  | none
  | assignment
  | or
  | and
  | equality
  | comparison
  | term
  | factor
  | unary
  | call
  | primary
deriving DecidableEq

/-- The `Precedence as i32` conversion used throughout the compiler. -/
def Precedence.toInt : Precedence → Int
  | .none => 0
  | .assignment => 1
  | .or => 2
  | .and => 3
  | .equality => 4
  | .comparison => 5
  | .term => 6
  | .factor => 7
  | .unary => 8
  | .call => 9
  | .primary => 10

/-- Parse-function tags, from `src/compiler.rs` (`ParseFn`). -/
inductive ParseFn where
  | call
  | grouping
  | unary
  | binary
  | variableK
  | string
  | number
  | and
  | literal
  | or
  | none
deriving DecidableEq

/-- A row of the Pratt rule table, from `src/compiler.rs` (`ParseRule`). -/
structure ParseRule where
  prefixFn : ParseFn
  infixFn : ParseFn
  precedence : Precedence

/-- `CompilerManager::rules`: the Pratt rule table. -/
def rules : TokenType → ParseRule
  | .leftParen => ⟨.grouping, .call, .call⟩
  | .rightParen => ⟨.none, .none, .none⟩
  | .leftBrace => ⟨.none, .none, .none⟩
  | .rightBrace => ⟨.none, .none, .none⟩
  | .comma => ⟨.none, .none, .none⟩
  | .dot => ⟨.none, .none, .none⟩
  | .minus => ⟨.unary, .binary, .term⟩
  | .plus => ⟨.none, .binary, .term⟩
  | .semicolon => ⟨.none, .none, .none⟩
  | .slash => ⟨.none, .binary, .factor⟩
  | .star => ⟨.none, .binary, .factor⟩
  | .bang => ⟨.unary, .none, .none⟩
  | .bangEqual => ⟨.none, .binary, .equality⟩
  | .equal => ⟨.none, .none, .none⟩
  | .equalEqual => ⟨.none, .binary, .equality⟩
  | .greater => ⟨.none, .binary, .comparison⟩
  | .greaterEqual => ⟨.none, .binary, .comparison⟩
  | .less => ⟨.none, .binary, .comparison⟩
  | .lessEqual => ⟨.none, .binary, .comparison⟩
  | .identifier => ⟨.variableK, .none, .none⟩
  | .string => ⟨.string, .none, .none⟩
  | .number => ⟨.number, .none, .none⟩
  | .and => ⟨.none, .and, .and⟩
  | .classK => ⟨.none, .none, .none⟩
  | .elseK => ⟨.none, .none, .none⟩
  | .falseK => ⟨.literal, .none, .none⟩
  | .forK => ⟨.none, .none, .none⟩
  | .funK => ⟨.none, .none, .none⟩
  | .ifK => ⟨.none, .none, .none⟩
  | .nil => ⟨.literal, .none, .none⟩
  | .or => ⟨.none, .or, .or⟩
  | .print => ⟨.none, .none, .none⟩
  | .returnK => ⟨.none, .none, .none⟩
  | .super => ⟨.none, .none, .none⟩
  | .this => ⟨.none, .none, .none⟩
  | .trueK => ⟨.literal, .none, .none⟩
  | .var => ⟨.none, .none, .none⟩
  | .whileK => ⟨.none, .none, .none⟩
  | .error _ => ⟨.none, .none, .none⟩
  | .eof => ⟨.none, .none, .none⟩

/-- A local variable, from `src/compiler.rs` (`Local`); depth `-1` marks a
declared but uninitialized local. -/
structure Local where
  name : Token
  depth : Int

/-- One compiler, from `src/compiler.rs` (`Compiler`). -/
structure Compiler where
  function : Func
  functionType : FunctionType
  locals : List Local
  scopeDepth : Int

/-- `Compiler::new`. -/
def Compiler.new (functionType : FunctionType) : Compiler :=
  { function := Func.new, functionType := functionType, locals := [], scopeDepth := 0 }

/-- The parser state, from `src/parser.rs` (`Parser`).  `messages` models
the error text that `error_at` prints to stderr, in print order. -/
structure Parser where
  current : Token
  previous : Token
  hadError : Bool
  panicMode : Bool
  errorMessage : String
  messages : List String

/-- `Parser::init`. -/
def Parser.init : Parser :=
  let placeholderToken : Token :=
    { tokenType := .error .uninitializedToken, start := 0, length := 0, line := 0 }
  { current := placeholderToken
    previous := placeholderToken
    hadError := false
    panicMode := false
    errorMessage := ""
    messages := [] }

/-- The compiler manager, from `src/compiler.rs` (`CompilerManager`). -/
structure CompilerManager where
  current : Int
  compilers : List Compiler
  scanner : Scanner
  parser : Parser

/-- `CompilerManager::current_compiler` (read access). -/
def CompilerManager.currentCompiler (cm : CompilerManager) : Compiler :=
  cm.compilers.getD cm.current.toNat (Compiler.new .script)

/-- `CompilerManager::current_compiler` (write access): apply an update to
the compiler at index `current`. -/
def CompilerManager.modifyCC (cm : CompilerManager) (f : Compiler → Compiler) :
    CompilerManager :=
  { cm with compilers := cm.compilers.set cm.current.toNat (f cm.currentCompiler) }

/-- The characters of a token's lexeme (the slice taken by
`CompilerManager::lexeme_to_string`). -/
def CompilerManager.lexemeChars (cm : CompilerManager) (token : Token) : List Char :=
  (cm.scanner.source.drop token.start).take token.length.toNat

/-- `CompilerManager::lexeme_to_string`. -/
def CompilerManager.lexemeToString (cm : CompilerManager) (token : Token) : String :=
  String.mk (cm.lexemeChars token)

/-- `CompilerManager::section_to_string`. -/
def CompilerManager.sectionToString (cm : CompilerManager) (start length : Nat) : String :=
  String.mk ((cm.scanner.source.drop start).take length)

/-- `CompilerManager::error_at`: suppressed while panicking; otherwise sets
panic mode, records the error and prints the message (modelled by
`messages`). -/
def CompilerManager.errorAt (cm : CompilerManager) (_token : Token) (message : String) :
    CompilerManager :=
  if cm.parser.panicMode then cm
  else
    { cm with
      parser :=
        { cm.parser with
          panicMode := true
          hadError := true
          errorMessage := message
          messages := cm.parser.messages ++ [message] } }

/-- `CompilerManager::error`. -/
def CompilerManager.error (cm : CompilerManager) (message : String) : CompilerManager :=
  cm.errorAt cm.parser.previous message

/-- The message the compiler reports for each scanner error cause (the
match in `CompilerManager::advance`). -/
def scanErrorMessage : ScannerError → String
  | .unexpectedCharacter => "Unexpected character."
  | .unterminatedString => "Unterminated string."
  | .uninitializedToken => "Uninitialized token."

/-- The error-skipping loop of `CompilerManager::advance`. -/
def CompilerManager.advanceLoop : Nat → CompilerManager → CompilerManager
  | 0, cm => cm
  | fuel + 1, cm =>
      let (scanner, token) := cm.scanner.scanToken
      let cm := { cm with scanner := scanner, parser := { cm.parser with current := token } }
      match token.tokenType with
      | .error e => CompilerManager.advanceLoop fuel (cm.errorAt token (scanErrorMessage e))
      | _ => cm

/-- `CompilerManager::advance`. -/
def CompilerManager.advance (cm : CompilerManager) : CompilerManager :=
  CompilerManager.advanceLoop (cm.scanner.source.length + 2)
    { cm with parser := { cm.parser with previous := cm.parser.current } }

/-- `CompilerManager::check`. -/
def CompilerManager.check (cm : CompilerManager) (tokenType : TokenType) : Bool :=
  cm.parser.current.tokenType = tokenType

/-- `CompilerManager::match_token`. -/
def CompilerManager.matchToken (cm : CompilerManager) (tokenType : TokenType) :
    CompilerManager × Bool :=
  if cm.check tokenType then (cm.advance, true) else (cm, false)

/-- `CompilerManager::consume`. -/
def CompilerManager.consume (cm : CompilerManager) (tokenType : TokenType)
    (message : String) : CompilerManager :=
  if cm.parser.current.tokenType = tokenType then cm.advance
  else cm.errorAt cm.parser.current message

/-- `CompilerManager::emit_instruction`. -/
def CompilerManager.emitInstruction (cm : CompilerManager) (instruction : Instruction) :
    CompilerManager :=
  let lineNum := cm.parser.previous.line
  cm.modifyCC fun c =>
    { c with function := { c.function with chunk := c.function.chunk.write instruction lineNum } }

/-- `CompilerManager::emit_instructions`. -/
def CompilerManager.emitInstructions (cm : CompilerManager) (i1 i2 : Instruction) :
    CompilerManager :=
  (cm.emitInstruction i1).emitInstruction i2

/-- `CompilerManager::make_constant`: the constant is appended first; the
overflow test compares the index cast to `u8` (`index % 256`) against
`u8::MAX`. -/
def CompilerManager.makeConstant (cm : CompilerManager) (value : Value) :
    CompilerManager × Nat :=
  let constantIndex := cm.currentCompiler.function.chunk.constants.length
  let cm := cm.modifyCC fun c =>
    { c with function := { c.function with chunk := (c.function.chunk.addConstant value).1 } }
  if constantIndex % 256 > 255 then (cm.error "Too many constants in one chunk.", 0)
  else (cm, constantIndex)

/-- `CompilerManager::emit_constant`. -/
def CompilerManager.emitConstant (cm : CompilerManager) (value : Value) : CompilerManager :=
  let (cm, constantIndex) := cm.makeConstant value
  cm.emitInstruction (.opConstant constantIndex)

/-- `CompilerManager::end`: emit the final `OpReturn`, return the compiled
function and drop back to the enclosing compiler. -/
def CompilerManager.endCompiler (cm : CompilerManager) : CompilerManager × Func :=
  let cm := cm.emitInstruction .opReturn
  let compiledFunction := cm.currentCompiler.function
  ({ cm with current := cm.current - 1 }, compiledFunction)

/-- `CompilerManager::begin_scope`. -/
def CompilerManager.beginScope (cm : CompilerManager) : CompilerManager :=
  cm.modifyCC fun c => { c with scopeDepth := c.scopeDepth + 1 }

/-- The reversed index loop of `CompilerManager::end_scope`. -/
def CompilerManager.endScopeIter : Nat → CompilerManager → CompilerManager
  | 0, cm => cm
  | i + 1, cm =>
      let c := cm.currentCompiler
      let cm :=
        match c.locals.get? i with
        | some l =>
            if l.depth > c.scopeDepth then
              (cm.emitInstruction .opPop).modifyCC fun c => { c with locals := c.locals.dropLast }
            else cm
        | none => cm
      CompilerManager.endScopeIter i cm

/-- `CompilerManager::end_scope`. -/
def CompilerManager.endScope (cm : CompilerManager) : CompilerManager :=
  let cm := cm.modifyCC fun c => { c with scopeDepth := c.scopeDepth - 1 }
  CompilerManager.endScopeIter cm.currentCompiler.locals.length cm

/-- `CompilerManager::mark_initialized`. -/
def CompilerManager.markInitialized (cm : CompilerManager) : CompilerManager :=
  if cm.currentCompiler.scopeDepth = 0 then cm
  else
    cm.modifyCC fun c =>
      let i := c.locals.length - 1
      match c.locals.get? i with
      | some l => { c with locals := c.locals.set i { l with depth := c.scopeDepth } }
      | none => c

/-- `CompilerManager::add_local`: the length test casts to `u8`. -/
def CompilerManager.addLocal (cm : CompilerManager) (name : Token) : CompilerManager :=
  if cm.currentCompiler.locals.length % 256 = 255 then
    cm.error "Too many local variables in function."
  else cm.modifyCC fun c => { c with locals := c.locals ++ [{ name := name, depth := -1 }] }

/-- `CompilerManager::identifiers_equal`: equal lengths and equal lexeme
slices of the source. -/
def CompilerManager.identifiersEqual (cm : CompilerManager) (t1 t2 : Token) : Bool :=
  t1.length == t2.length && cm.lexemeChars t1 == cm.lexemeChars t2

/-- The reversed duplicate-search loop of `CompilerManager::declare_variable`;
returns whether a clashing local was found. -/
def CompilerManager.declareVarLoop (cm : CompilerManager) (name : Token)
    (scopeDepth : Int) : Nat → Bool
  | 0 => false
  | i + 1 =>
      match cm.currentCompiler.locals.get? i with
      | none => false
      | some l =>
          if l.depth ≠ -1 ∧ l.depth < scopeDepth then false
          else if cm.identifiersEqual name l.name then true
          else cm.declareVarLoop name scopeDepth i

/-- `CompilerManager::declare_variable`. -/
def CompilerManager.declareVariable (cm : CompilerManager) : CompilerManager :=
  if cm.currentCompiler.scopeDepth = 0 then cm
  else
    let name := cm.parser.previous
    let isDup :=
      cm.declareVarLoop name cm.currentCompiler.scopeDepth cm.currentCompiler.locals.length
    let cm := if isDup then cm.error "Already variable with this name in this scope." else cm
    cm.addLocal name

/-- `CompilerManager::identifier_constant`. -/
def CompilerManager.identifierConstant (cm : CompilerManager) (name : Token) :
    CompilerManager × Nat :=
  cm.makeConstant (.string (cm.lexemeToString name))

/-- `CompilerManager::parse_variable`. -/
def CompilerManager.parseVariable (cm : CompilerManager) (errorMessage : String) :
    CompilerManager × Nat :=
  let cm := cm.consume .identifier errorMessage
  let cm := cm.declareVariable
  if cm.currentCompiler.scopeDepth > 0 then (cm, 0)
  else cm.identifierConstant cm.parser.previous

/-- `CompilerManager::define_variable`. -/
def CompilerManager.defineVariable (cm : CompilerManager) (global : Nat) : CompilerManager :=
  if cm.currentCompiler.scopeDepth > 0 then cm.markInitialized
  else cm.emitInstruction (.opDefineGlobal global)

/-- The reversed search loop of `CompilerManager::resolve_local`. -/
def CompilerManager.resolveLocalLoop (name : Token) : Nat → CompilerManager →
    CompilerManager × Int
  | 0, cm => (cm, -1)
  | i + 1, cm =>
      match cm.currentCompiler.locals.get? i with
      | none => (cm, -1)
      | some l =>
          if cm.identifiersEqual l.name name then
            (if l.depth = -1 then
              cm.error "Can't read local variable in its own initializer."
            else cm, (i : Int))
          else CompilerManager.resolveLocalLoop name i cm

/-- `CompilerManager::resolve_local`. -/
def CompilerManager.resolveLocal (cm : CompilerManager) (name : Token) :
    CompilerManager × Int :=
  CompilerManager.resolveLocalLoop name cm.currentCompiler.locals.length cm

/-- The token-skipping loop of `CompilerManager::synchronize`. -/
def CompilerManager.synchronizeLoop : Nat → CompilerManager → CompilerManager
  | 0, cm => cm
  | fuel + 1, cm =>
      if cm.parser.current.tokenType = .eof then cm
      else if cm.parser.previous.tokenType = .semicolon then cm
      else
        match cm.parser.current.tokenType with
        | .classK => cm
        | .funK => cm
        | .var => cm
        | .forK => cm
        | .ifK => cm
        | .whileK => cm
        | .print => cm
        | .returnK => cm
        | _ => CompilerManager.synchronizeLoop fuel cm.advance

/-- `CompilerManager::synchronize`. -/
def CompilerManager.synchronize (cm : CompilerManager) : CompilerManager :=
  let cm := { cm with parser := { cm.parser with panicMode := false } }
  CompilerManager.synchronizeLoop (cm.scanner.source.length + 2) cm

/-- `CompilerManager::init_compiler`: push a fresh compiler whose slot 0 is
reserved, and name its function from the previous token when it is not the
script compiler. -/
def CompilerManager.initCompiler (cm : CompilerManager) (functionType : FunctionType) :
    CompilerManager :=
  let compiler :=
    { Compiler.new functionType with
      locals := [{ name := { tokenType := .identifier, start := 0, length := 0, line := 0 }
                   depth := 0 }] }
  let cm := { cm with compilers := cm.compilers ++ [compiler], current := cm.current + 1 }
  if functionType ≠ .script then
    cm.modifyCC fun c =>
      { c with function := { c.function with name := cm.lexemeToString cm.parser.previous } }
  else cm

/-- `CompilerManager::emit_jump`: emit a placeholder jump and return the
offset of the emitted instruction. -/
def CompilerManager.emitJump (cm : CompilerManager) (instruction : Instruction) :
    CompilerManager × Nat :=
  let cm := cm.emitInstruction instruction
  (cm, cm.currentCompiler.function.chunk.bytecode.length - 1)

/-- `CompilerManager::patch_jump`. -/
def CompilerManager.patchJump (cm : CompilerManager) (offset : Nat) : CompilerManager :=
  cm.modifyCC fun c =>
    { c with function := { c.function with chunk := c.function.chunk.patchJump offset } }

/-- `CompilerManager::emit_loop`. -/
def CompilerManager.emitLoop (cm : CompilerManager) (loopStart : Nat) : CompilerManager :=
  let offset := cm.currentCompiler.function.chunk.bytecode.length - loopStart + 1
  cm.emitInstruction (.opLoop offset)

/-- The numeric value of a number lexeme (`lexeme.parse::<f64>()`), exact
over `Rat` for `digit+ ('.' digit+)?` lexemes. -/
def parseNumberLexeme (cs : List Char) : Rat :=
  let digitsVal : List Char → Nat := fun l => l.foldl (fun acc c => acc * 10 + (c.toNat - 48)) 0
  let intPart := cs.takeWhile (fun c => c ≠ '.')
  let fracPart := (cs.dropWhile (fun c => c ≠ '.')).drop 1
  (digitsVal intPart : Rat) + (digitsVal fracPart : Rat) / ((10 : Rat) ^ fracPart.length)

/-- `CompilerManager::number`. -/
def CompilerManager.numberFn (cm : CompilerManager) : CompilerManager :=
  cm.emitConstant (.number (parseNumberLexeme (cm.lexemeChars cm.parser.previous)))

/-- `CompilerManager::string`: the lexeme without the surrounding quotes. -/
def CompilerManager.stringFn (cm : CompilerManager) : CompilerManager :=
  let s := cm.sectionToString (cm.parser.previous.start + 1) (cm.parser.previous.length - 2).toNat
  cm.emitConstant (.string s)

/-- `CompilerManager::literal`. -/
def CompilerManager.literalFn (cm : CompilerManager) : CompilerManager :=
  match cm.parser.previous.tokenType with
  | .falseK => cm.emitInstruction .opFalse
  | .nil => cm.emitInstruction .opNil
  | .trueK => cm.emitInstruction .opTrue
  | _ => cm

mutual

/-- `CompilerManager::declaration`. -/
def CompilerManager.declaration : Nat → CompilerManager → CompilerManager
  | 0, cm => cm
  | fuel + 1, cm =>
      let (cm, isFun) := cm.matchToken .funK
      let cm :=
        if isFun then CompilerManager.funDeclaration fuel cm
        else
          let (cm, isVar) := cm.matchToken .var
          if isVar then CompilerManager.varDeclaration fuel cm
          else CompilerManager.statement fuel cm
      if cm.parser.panicMode then cm.synchronize else cm

/-- `CompilerManager::var_declaration`. -/
def CompilerManager.varDeclaration : Nat → CompilerManager → CompilerManager
  | 0, cm => cm
  | fuel + 1, cm =>
      let (cm, global) := cm.parseVariable "Expect variable name."
      let (cm, isEq) := cm.matchToken .equal
      let cm :=
        if isEq then CompilerManager.expression fuel cm
        else cm.emitInstruction .opNil
      let cm := cm.consume .semicolon "Expect ';' after variable declaration."
      cm.defineVariable global

/-- `CompilerManager::fun_declaration`. -/
def CompilerManager.funDeclaration : Nat → CompilerManager → CompilerManager
  | 0, cm => cm
  | fuel + 1, cm =>
      let (cm, global) := cm.parseVariable "Expect function name."
      let cm := cm.markInitialized
      let cm := CompilerManager.functionFn fuel .function cm
      cm.defineVariable global

/-- `CompilerManager::statement`. -/
def CompilerManager.statement : Nat → CompilerManager → CompilerManager
  | 0, cm => cm
  | fuel + 1, cm =>
      let (cm, isPrint) := cm.matchToken .print
      if isPrint then CompilerManager.printStatement fuel cm
      else
        let (cm, isFor) := cm.matchToken .forK
        if isFor then CompilerManager.forStatement fuel cm
        else
          let (cm, isIf) := cm.matchToken .ifK
          if isIf then CompilerManager.ifStatement fuel cm
          else
            let (cm, isWhile) := cm.matchToken .whileK
            if isWhile then CompilerManager.whileStatement fuel cm
            else
              let (cm, isBrace) := cm.matchToken .leftBrace
              if isBrace then
                (CompilerManager.block fuel cm.beginScope).endScope
              else CompilerManager.expressionStatement fuel cm

/-- `CompilerManager::print_statement`. -/
def CompilerManager.printStatement : Nat → CompilerManager → CompilerManager
  | 0, cm => cm
  | fuel + 1, cm =>
      let cm := CompilerManager.expression fuel cm
      let cm := cm.consume .semicolon "Expect ';' after value."
      cm.emitInstruction .opPrint

/-- `CompilerManager::expression_statement`. -/
def CompilerManager.expressionStatement : Nat → CompilerManager → CompilerManager
  | 0, cm => cm
  | fuel + 1, cm =>
      let cm := CompilerManager.expression fuel cm
      let cm := cm.consume .semicolon "Expect ';' after expression."
      cm.emitInstruction .opPop

/-- `CompilerManager::if_statement`. -/
def CompilerManager.ifStatement : Nat → CompilerManager → CompilerManager
  | 0, cm => cm
  | fuel + 1, cm =>
      let cm := cm.consume .leftParen "Expect '(' after 'if'."
      let cm := CompilerManager.expression fuel cm
      let cm := cm.consume .rightParen "Expect ')' after condition."
      let (cm, thenJump) := cm.emitJump (.opJumpIfFalse 0xffff)
      let cm := cm.emitInstruction .opPop
      let cm := CompilerManager.statement fuel cm
      let (cm, elseJump) := cm.emitJump (.opJump 0xffff)
      let cm := cm.patchJump thenJump
      let cm := cm.emitInstruction .opPop
      let (cm, isElse) := cm.matchToken .elseK
      let cm := if isElse then CompilerManager.statement fuel cm else cm
      cm.patchJump elseJump

/-- `CompilerManager::while_statement`. -/
def CompilerManager.whileStatement : Nat → CompilerManager → CompilerManager
  | 0, cm => cm
  | fuel + 1, cm =>
      let loopStart := cm.currentCompiler.function.chunk.bytecode.length
      let cm := cm.consume .leftParen "Expect '(' after 'while'."
      let cm := CompilerManager.expression fuel cm
      let cm := cm.consume .rightParen "Expect ')' after condition."
      let (cm, exitJump) := cm.emitJump (.opJumpIfFalse 0xffff)
      let cm := cm.emitInstruction .opPop
      let cm := CompilerManager.statement fuel cm
      let cm := cm.emitLoop loopStart
      let cm := cm.patchJump exitJump
      cm.emitInstruction .opPop

/-- `CompilerManager::for_statement` (note the `0xfff` body-jump
placeholder in the source). -/
def CompilerManager.forStatement : Nat → CompilerManager → CompilerManager
  | 0, cm => cm
  | fuel + 1, cm =>
      let cm := cm.beginScope
      let cm := cm.consume .leftParen "Expect '(' after 'for'."
      let (cm, initSemi) := cm.matchToken .semicolon
      let cm :=
        if initSemi then cm
        else
          let (cm, isVar) := cm.matchToken .var
          if isVar then CompilerManager.varDeclaration fuel cm
          else CompilerManager.expressionStatement fuel cm
      let loopStart := cm.currentCompiler.function.chunk.bytecode.length
      let (cm, condSemi) := cm.matchToken .semicolon
      let (cm, exitJump) :=
        if condSemi then (cm, (-1 : Int))
        else
          let cm := CompilerManager.expression fuel cm
          let cm := cm.consume .semicolon "Expect ';' after loop condition."
          let (cm, j) := cm.emitJump (.opJumpIfFalse 0xffff)
          (cm.emitInstruction .opPop, (j : Int))
      let (cm, isRightParen) := cm.matchToken .rightParen
      let (cm, loopStart) :=
        if isRightParen then (cm, loopStart)
        else
          let (cm, bodyJump) := cm.emitJump (.opJump 0xfff)
          let incrementStart := cm.currentCompiler.function.chunk.bytecode.length
          let cm := CompilerManager.expression fuel cm
          let cm := cm.emitInstruction .opPop
          let cm := cm.consume .rightParen "Expect ')' after for clauses."
          let cm := cm.emitLoop loopStart
          (cm.patchJump bodyJump, incrementStart)
      let cm := CompilerManager.statement fuel cm
      let cm := cm.emitLoop loopStart
      let cm :=
        if exitJump ≠ -1 then (cm.patchJump exitJump.toNat).emitInstruction .opPop
        else cm
      cm.endScope

/-- `CompilerManager::expression`. -/
def CompilerManager.expression : Nat → CompilerManager → CompilerManager
  | 0, cm => cm
  | fuel + 1, cm => CompilerManager.parsePrecedence fuel Precedence.assignment.toInt cm

/-- `CompilerManager::parse_precedence`. -/
def CompilerManager.parsePrecedence : Nat → Int → CompilerManager → CompilerManager
  | 0, _, cm => cm
  | fuel + 1, precedence, cm =>
      let cm := cm.advance
      let prefixRule := (rules cm.parser.previous.tokenType).prefixFn
      if prefixRule = ParseFn.none then cm.error "Expect expression."
      else
        let canAssign : Bool := precedence ≤ Precedence.assignment.toInt
        let cm := CompilerManager.parseFnDispatch fuel prefixRule canAssign cm
        let cm := CompilerManager.infixLoop fuel precedence canAssign cm
        if canAssign then
          let (cm, isEq) := cm.matchToken .equal
          if isEq then cm.error "Invalid assignment target." else cm
        else cm

/-- The infix loop of `CompilerManager::parse_precedence`. -/
def CompilerManager.infixLoop : Nat → Int → Bool → CompilerManager → CompilerManager
  | 0, _, _, cm => cm
  | fuel + 1, precedence, canAssign, cm =>
      if precedence ≤ (rules cm.parser.current.tokenType).precedence.toInt then
        let cm := cm.advance
        let infixRule := (rules cm.parser.previous.tokenType).infixFn
        let cm := CompilerManager.parseFnDispatch fuel infixRule canAssign cm
        CompilerManager.infixLoop fuel precedence canAssign cm
      else cm

/-- `CompilerManager::parse_fn`: dispatch on a parse-function tag. -/
def CompilerManager.parseFnDispatch : Nat → ParseFn → Bool → CompilerManager →
    CompilerManager
  | 0, _, _, cm => cm
  | fuel + 1, parseFn, canAssign, cm =>
      match parseFn with
      | .call => CompilerManager.callFn fuel cm
      | .grouping => CompilerManager.grouping fuel cm
      | .unary => CompilerManager.unaryFn fuel cm
      | .binary => CompilerManager.binaryFn fuel cm
      | .variableK => CompilerManager.variableFn fuel canAssign cm
      | .string => cm.stringFn
      | .number => cm.numberFn
      | .and => CompilerManager.andFn fuel cm
      | .literal => cm.literalFn
      | .or => CompilerManager.orFn fuel cm
      | .none => cm

/-- `CompilerManager::grouping`. -/
def CompilerManager.grouping : Nat → CompilerManager → CompilerManager
  | 0, cm => cm
  | fuel + 1, cm =>
      let cm := CompilerManager.expression fuel cm
      cm.consume .rightParen "Expect ')' after expression."

/-- `CompilerManager::unary`. -/
def CompilerManager.unaryFn : Nat → CompilerManager → CompilerManager
  | 0, cm => cm
  | fuel + 1, cm =>
      let operatorType := cm.parser.previous.tokenType
      let cm := CompilerManager.parsePrecedence fuel Precedence.unary.toInt cm
      match operatorType with
      | .bang => cm.emitInstruction .opNot
      | .minus => cm.emitInstruction .opNegate
      | _ => cm

/-- `CompilerManager::binary`. -/
def CompilerManager.binaryFn : Nat → CompilerManager → CompilerManager
  | 0, cm => cm
  | fuel + 1, cm =>
      let operatorType := cm.parser.previous.tokenType
      let rule := rules operatorType
      let cm := CompilerManager.parsePrecedence fuel (rule.precedence.toInt + 1) cm
      match operatorType with
      | .bangEqual => cm.emitInstructions .opEqual .opNot
      | .equalEqual => cm.emitInstruction .opEqual
      | .greater => cm.emitInstruction .opGreater
      | .greaterEqual => cm.emitInstructions .opLess .opNot
      | .less => cm.emitInstruction .opLess
      | .lessEqual => cm.emitInstructions .opGreater .opNot
      | .plus => cm.emitInstruction .opAdd
      | .minus => cm.emitInstruction .opSubtract
      | .star => cm.emitInstruction .opMultiply
      | .slash => cm.emitInstruction .opDivide
      | _ => cm

/-- `CompilerManager::variable`. -/
def CompilerManager.variableFn : Nat → Bool → CompilerManager → CompilerManager
  | 0, _, cm => cm
  | fuel + 1, canAssign, cm =>
      CompilerManager.namedVariable fuel cm.parser.previous canAssign cm

/-- `CompilerManager::named_variable`. -/
def CompilerManager.namedVariable : Nat → Token → Bool → CompilerManager →
    CompilerManager
  | 0, _, _, cm => cm
  | fuel + 1, name, canAssign, cm =>
      let (cm, arg) := cm.resolveLocal name
      let (cm, getOp, setOp) :=
        if arg ≠ -1 then
          (cm, Instruction.opGetLocal arg.toNat, Instruction.opSetLocal arg.toNat)
        else
          let (cm, argNum) := cm.identifierConstant name
          (cm, Instruction.opGetGlobal argNum, Instruction.opSetGlobal argNum)
      if canAssign then
        let (cm, isEq) := cm.matchToken .equal
        if isEq then (CompilerManager.expression fuel cm).emitInstruction setOp
        else cm.emitInstruction getOp
      else cm.emitInstruction getOp

/-- `CompilerManager::call`. -/
def CompilerManager.callFn : Nat → CompilerManager → CompilerManager
  | 0, cm => cm
  | fuel + 1, cm =>
      let (cm, argCount) := CompilerManager.argumentList fuel cm
      cm.emitInstruction (.opCall argCount)

/-- `CompilerManager::argument_list` (note: the closing consume expects a
`LeftBrace` token in the source). -/
def CompilerManager.argumentList : Nat → CompilerManager → CompilerManager × Nat
  | 0, cm => (cm, 0)
  | fuel + 1, cm =>
      let (cm, argCount) :=
        if ¬ cm.check .rightParen then CompilerManager.argLoop fuel 0 cm
        else (cm, 0)
      (cm.consume .leftBrace "Expect ')' after arguments.", argCount)

/-- The argument loop of `CompilerManager::argument_list`. -/
def CompilerManager.argLoop : Nat → Nat → CompilerManager → CompilerManager × Nat
  | 0, argCount, cm => (cm, argCount)
  | fuel + 1, argCount, cm =>
      let cm := CompilerManager.expression fuel cm
      let cm := if argCount = 255 then cm.error "Can't have more than 255 arguments." else cm
      let argCount := argCount + 1
      let (cm, isComma) := cm.matchToken .comma
      if isComma then CompilerManager.argLoop fuel argCount cm else (cm, argCount)

/-- `CompilerManager::and`. -/
def CompilerManager.andFn : Nat → CompilerManager → CompilerManager
  | 0, cm => cm
  | fuel + 1, cm =>
      let (cm, endJump) := cm.emitJump (.opJumpIfFalse 0xffff)
      let cm := cm.emitInstruction .opPop
      let cm := CompilerManager.parsePrecedence fuel Precedence.and.toInt cm
      cm.patchJump endJump

/-- `CompilerManager::or`. -/
def CompilerManager.orFn : Nat → CompilerManager → CompilerManager
  | 0, cm => cm
  | fuel + 1, cm =>
      let (cm, elseJump) := cm.emitJump (.opJumpIfFalse 0xffff)
      let (cm, endJump) := cm.emitJump (.opJump 0xffff)
      let cm := cm.patchJump elseJump
      let cm := cm.emitInstruction .opPop
      let cm := CompilerManager.parsePrecedence fuel Precedence.or.toInt cm
      cm.patchJump endJump

/-- `CompilerManager::block`. -/
def CompilerManager.block : Nat → CompilerManager → CompilerManager
  | 0, cm => cm
  | fuel + 1, cm =>
      let cm := CompilerManager.blockLoop fuel cm
      cm.consume .rightBrace "Expect '\x7d' after block."

/-- The declaration loop of `CompilerManager::block`. -/
def CompilerManager.blockLoop : Nat → CompilerManager → CompilerManager
  | 0, cm => cm
  | fuel + 1, cm =>
      if ¬ cm.check .rightBrace ∧ ¬ cm.check .eof then
        CompilerManager.blockLoop fuel (CompilerManager.declaration fuel cm)
      else cm

/-- `CompilerManager::function` (note: the consume of the body's opening
brace reuses the message of the preceding consume in the source). -/
def CompilerManager.functionFn : Nat → FunctionType → CompilerManager → CompilerManager
  | 0, _, cm => cm
  | fuel + 1, functionType, cm =>
      let cm := cm.initCompiler functionType
      let cm := cm.beginScope
      let cm := cm.consume .leftParen "Expect '(' after function name."
      let cm :=
        if ¬ cm.check .rightParen then CompilerManager.paramLoop fuel cm else cm
      let cm := cm.consume .rightParen "Expect ')' after parameters."
      let cm := cm.consume .leftBrace "Expect ')' after parameters."
      let cm := CompilerManager.block fuel cm
      let (cm, compiledFunction) := cm.endCompiler
      cm.emitConstant (.function compiledFunction)

/-- The parameter loop of `CompilerManager::function`. -/
def CompilerManager.paramLoop : Nat → CompilerManager → CompilerManager
  | 0, cm => cm
  | fuel + 1, cm =>
      let cm := cm.modifyCC fun c =>
        { c with function := { c.function with arity := c.function.arity + 1 } }
      let cm :=
        if cm.currentCompiler.function.arity > 255 then
          cm.errorAt cm.parser.current "Can't have more than 255 parameters."
        else cm
      let (cm, constant) := cm.parseVariable "Expect parameter name."
      let cm := cm.defineVariable constant
      let (cm, isComma) := cm.matchToken .comma
      if isComma then CompilerManager.paramLoop fuel cm else (cm : CompilerManager)

end

/-- The top-level declaration loop of `CompilerManager::compile`. -/
def CompilerManager.compileLoop : Nat → CompilerManager → CompilerManager
  | 0, cm => cm
  | fuel + 1, cm =>
      let (cm, isEof) := cm.matchToken .eof
      if isEof then cm
      else CompilerManager.compileLoop fuel (CompilerManager.declaration fuel cm)

/-- `CompilerManager::compile`: returns the final compiler-manager state and
the compiled top-level script function. -/
def CompilerManager.compile (fuel : Nat) (source : String) : CompilerManager × Func :=
  let cm : CompilerManager :=
    { current := -1
      compilers := []
      scanner := Scanner.init source.data
      parser := Parser.init }
  let cm := cm.initCompiler .script
  let cm := cm.advance
  let cm := CompilerManager.compileLoop fuel cm
  cm.endCompiler

/-- The `Result` returned by `CompilerManager::compile`. -/
def compileResult (fuel : Nat) (source : String) : Except String Func :=
  let (cm, compiledFunction) := CompilerManager.compile fuel source
  if cm.parser.hadError then .error cm.parser.errorMessage
  else .ok compiledFunction

/-- `FRAMES_MAX` from `src/vm/vm.rs`. -/
def FRAMES_MAX : Nat := 64

/-- `STACK_MAX` from `src/vm/vm.rs`. -/
def STACK_MAX : Nat := 256 * FRAMES_MAX

/-- A call frame, from `src/vm/call_frame.rs` (`CallFrame`). -/
structure CallFrame where
  function : Func
  ip : Nat
  stackIndex : Nat

/-- `VMError` from `src/vm/vm.rs`. -/
inductive VMError where
  | compileError
  | runtimeError
deriving DecidableEq

/-- The VM state, from `src/vm/vm.rs` (`VM`).  The frame at the end of the
source's `frames` vector is the head of `frames` here; the fixed value-stack
array of `STACK_MAX` cells (each initialised `Nil`) is the function `stack`;
`clockCalls` counts invocations of the native clock so that the clock oracle
can be consulted per call. -/
structure VMState where
  frames : List CallFrame
  stack : Nat → Value
  stackTop : Nat
  globals : String → Option Value
  printed : List Value
  latestError : String
  clockCalls : Nat

/-- Point update of the value-stack array. -/
def setStack (stack : Nat → Value) (i : Nat) (v : Value) : Nat → Value :=
  fun j => if j = i then v else stack j

/-- `VM::new`: empty stacks and the native `clock` registered in the
globals (`VM::define_native`). -/
def VM.new : VMState :=
  { frames := []
    stack := fun _ => Value.nil
    stackTop := 0
    globals := fun n =>
      if n = "clock" then
        some (.nativeFunction { arity := 0, name := "clock", function := .clock })
      else none
    printed := []
    latestError := ""
    clockCalls := 0 }

/-- Invoke a native function's host code; `clock_native` returns the
current clock reading. -/
def nativeCall (clock : Nat → Rat) (calls : Nat) : NativeId → Value
  | .clock => .number (clock calls)

/-- `VM::push_to_stack`; `none` models the array-index panic when the stack
is full. -/
def VMState.push (st : VMState) (value : Value) : Option VMState :=
  if st.stackTop < STACK_MAX then
    some { st with stack := setStack st.stack st.stackTop value, stackTop := st.stackTop + 1 }
  else none

/-- `VM::pop_from_stack`; `none` models the usize underflow panic on an
empty stack.  `Cell::take` leaves `Nil` behind in the popped slot. -/
def VMState.pop (st : VMState) : Option (Value × VMState) :=
  if st.stackTop = 0 then none
  else
    let t := st.stackTop - 1
    some (st.stack t, { st with stackTop := t, stack := setStack st.stack t Value.nil })

/-- `VM::reset_stack`. -/
def VMState.resetStack (st : VMState) : VMState :=
  { st with stackTop := 0, frames := [] }

/-- `VM::runtime_error`: record the message (the stack-trace printing is a
side effect that the theorems do not observe) and reset the stacks. -/
def VMState.runtimeError (st : VMState) (message : String) : VMState :=
  ({ st with latestError := message }).resetStack

/-- Remove a key from the globals map (`HashMap::remove`). -/
def VMState.removeGlobal (st : VMState) (name : String) : VMState :=
  { st with globals := fun k => if k = name then none else st.globals k }

/-- Insert a key into the globals map (`HashMap::insert`). -/
def VMState.insertGlobal (st : VMState) (name : String) (value : Value) : VMState :=
  { st with globals := fun k => if k = name then some value else st.globals k }

/-- The result of `VM::call`. -/
inductive CallResult where
  | ok (st : VMState)
  | err (st : VMState) (e : VMError)
  | panicked (st : VMState)

/-- The bookkeeping of `VM::call` that saves the running frame's ip before
the new frame is pushed. -/
def VMState.saveIp (st : VMState) (ip : Nat) : VMState :=
  match st.frames with
  | [] => st
  | fr :: rest => { st with frames := { fr with ip := ip } :: rest }

/-- `VM::call`: arity check, then the `FRAMES_MAX` check, then push the new
frame whose window starts at the callee's stack slot. -/
def vmCall (st : VMState) (function : Func) (argCount : Nat) (currentFrameIp : Nat) :
    CallResult :=
  if (argCount : Int) ≠ function.arity then
    .err (st.runtimeError
      ("Expected " ++ toString function.arity ++ " arguments but got " ++
        toString argCount ++ ".")) .runtimeError
  else if st.frames.length = FRAMES_MAX then
    .err (st.runtimeError "Stack overflow.") .runtimeError
  else
    let st := st.saveIp currentFrameIp
    if st.stackTop < argCount + 1 then .panicked st
    else
      .ok { st with
        frames :=
          { function := function, ip := 0, stackIndex := st.stackTop - 1 - argCount } ::
            st.frames }

/-- The outcome of one iteration of the `VM::run` loop. -/
inductive StepResult where
  | stepOk (frame : CallFrame) (st : VMState)
  | finished (st : VMState)
  | failed (st : VMState) (e : VMError)
  | panicked (st : VMState)

/-- One iteration of the `VM::run` dispatch loop: fetch the instruction at
`frame.ip`, advance the ip and execute. -/
def step (clock : Nat → Rat) (frame : CallFrame) (st : VMState) : StepResult :=
  let chunk := frame.function.chunk
  match chunk.bytecode.get? frame.ip with
  | none => .panicked st
  | some instruction =>
    let frame := { frame with ip := frame.ip + 1 }
    match instruction with
    | .opCall argCount =>
        if st.stackTop < argCount + 1 then .panicked st
        else
          match st.stack (st.stackTop - 1 - argCount) with
          | .function f =>
              match vmCall st f argCount frame.ip with
              | .ok st =>
                  match st.frames with
                  | fr :: _ => .stepOk fr st
                  | [] => .panicked st
              | .err st e => .failed st e
              | .panicked st => .panicked st
          | .nativeFunction nf =>
              let result := nativeCall clock st.clockCalls nf.function
              let st := { st with
                stackTop := st.stackTop - (argCount + 1)
                clockCalls := st.clockCalls + 1 }
              match st.push result with
              | some st => .stepOk frame st
              | none => .panicked st
          | _ =>
              .failed (st.runtimeError "Can only call functions and classes.") .runtimeError
    | .opNot =>
        match st.pop with
        | none => .panicked st
        | some (v, st) =>
            match st.push (.boolean (isFalsey v)) with
            | some st => .stepOk frame st
            | none => .panicked st
    | .opNegate =>
        match st.pop with
        | none => .panicked st
        | some (v, st) =>
            match v with
            | .number n =>
                match st.push (.number (-n)) with
                | some st => .stepOk frame st
                | none => .panicked st
            | _ => .failed (st.runtimeError "Operand must be a number.") .runtimeError
    | .opJump offset => .stepOk { frame with ip := frame.ip + offset } st
    | .opJumpIfFalse offset =>
        match st.pop with
        | none => .panicked st
        | some (v, st) =>
            let frame := if isFalsey v then { frame with ip := frame.ip + offset } else frame
            match st.push v with
            | some st => .stepOk frame st
            | none => .panicked st
    | .opLoop offset =>
        if offset > frame.ip then .panicked st
        else .stepOk { frame with ip := frame.ip - offset } st
    | .opGetLocal slot =>
        let idx := frame.stackIndex + slot
        if idx < STACK_MAX then
          match st.push (st.stack idx) with
          | some st => .stepOk frame st
          | none => .panicked st
        else .panicked st
    | .opSetLocal slot =>
        let idx := frame.stackIndex + slot
        if st.stackTop = 0 ∨ ¬ idx < STACK_MAX then .panicked st
        else
          let v := st.stack (st.stackTop - 1)
          .stepOk frame { st with stack := setStack st.stack idx v }
    | .opGetGlobal index =>
        match chunk.constants.get? index with
        | none => .panicked st
        | some (.string name) =>
            match st.globals name with
            | none =>
                .failed (st.runtimeError ("Undefined variable '" ++ name ++ "'."))
                  .runtimeError
            | some v =>
                match st.push v with
                | some st => .stepOk frame st
                | none => .panicked st
        | some _ => .failed st .runtimeError
    | .opSetGlobal index =>
        match chunk.constants.get? index with
        | none => .panicked st
        | some (.string name) =>
            if (st.globals name).isNone then
              .failed ((st.removeGlobal name).runtimeError
                ("Undefined variable '" ++ name ++ "'.")) .runtimeError
            else if st.stackTop = 0 then .panicked st
            else
              let v := st.stack (st.stackTop - 1)
              .stepOk frame (st.insertGlobal name v)
        | some _ => .failed st .runtimeError
    | .opDefineGlobal index =>
        match chunk.constants.get? index with
        | none => .panicked st
        | some (.string name) =>
            match st.pop with
            | none => .panicked st
            | some (v, st) => .stepOk frame (st.insertGlobal name v)
        | some _ => .failed st .runtimeError
    | .opEqual =>
        match st.pop with
        | none => .panicked st
        | some (v2, st) =>
            match st.pop with
            | none => .panicked st
            | some (v1, st) =>
                match st.push (.boolean (Value.equals v1 v2)) with
                | some st => .stepOk frame st
                | none => .panicked st
    | .opAdd =>
        match st.pop with
        | none => .panicked st
        | some (operand2, st) =>
            match st.pop with
            | none => .panicked st
            | some (operand1, st) =>
                if operand1.isString then
                  match Value.concatenateStrings operand1 operand2 with
                  | some v =>
                      match st.push v with
                      | some st => .stepOk frame st
                      | none => .panicked st
                  | none => .failed st .runtimeError
                else
                  match binaryArithmeticOp (· + ·) operand1 operand2 with
                  | some v =>
                      match st.push v with
                      | some st => .stepOk frame st
                      | none => .panicked st
                  | none => .failed st .runtimeError
    | .opSubtract =>
        match st.pop with
        | none => .panicked st
        | some (operand2, st) =>
            match st.pop with
            | none => .panicked st
            | some (operand1, st) =>
                match binaryArithmeticOp (· - ·) operand1 operand2 with
                | some v =>
                    match st.push v with
                    | some st => .stepOk frame st
                    | none => .panicked st
                | none => .failed st .runtimeError
    | .opMultiply =>
        match st.pop with
        | none => .panicked st
        | some (operand2, st) =>
            match st.pop with
            | none => .panicked st
            | some (operand1, st) =>
                match binaryArithmeticOp (· * ·) operand1 operand2 with
                | some v =>
                    match st.push v with
                    | some st => .stepOk frame st
                    | none => .panicked st
                | none => .failed st .runtimeError
    | .opDivide =>
        match st.pop with
        | none => .panicked st
        | some (operand2, st) =>
            match st.pop with
            | none => .panicked st
            | some (operand1, st) =>
                match binaryArithmeticOp (· / ·) operand1 operand2 with
                | some v =>
                    match st.push v with
                    | some st => .stepOk frame st
                    | none => .panicked st
                | none => .failed st .runtimeError
    | .opGreater =>
        match st.pop with
        | none => .panicked st
        | some (operand2, st) =>
            match st.pop with
            | none => .panicked st
            | some (operand1, st) =>
                match binaryBooleanOp (fun a b => decide (a > b)) operand1 operand2 with
                | some v =>
                    match st.push v with
                    | some st => .stepOk frame st
                    | none => .panicked st
                | none => .failed st .runtimeError
    | .opLess =>
        match st.pop with
        | none => .panicked st
        | some (operand2, st) =>
            match st.pop with
            | none => .panicked st
            | some (operand1, st) =>
                match binaryBooleanOp (fun a b => decide (a < b)) operand1 operand2 with
                | some v =>
                    match st.push v with
                    | some st => .stepOk frame st
                    | none => .panicked st
                | none => .failed st .runtimeError
    | .opNil =>
        match st.push .nil with
        | some st => .stepOk frame st
        | none => .panicked st
    | .opTrue =>
        match st.push (.boolean true) with
        | some st => .stepOk frame st
        | none => .panicked st
    | .opFalse =>
        match st.push (.boolean false) with
        | some st => .stepOk frame st
        | none => .panicked st
    | .opConstant index =>
        match chunk.constants.get? index with
        | none => .panicked st
        | some v =>
            match st.push v with
            | some st => .stepOk frame st
            | none => .panicked st
    | .opPop =>
        match st.pop with
        | none => .panicked st
        | some (_, st) => .stepOk frame st
    | .opPrint =>
        match st.pop with
        | none => .panicked st
        | some (v, st) => .stepOk frame { st with printed := st.printed ++ [v] }
    | .opReturn =>
        match st.pop with
        | none => .panicked st
        | some (returnVal, st) =>
            let st := { st with frames := st.frames.tail }
            if st.frames.isEmpty then
              match st.pop with
              | none => .panicked st
              | some (_, st) => .finished st
            else
              let st := { st with stackTop := frame.stackIndex }
              match st.push returnVal with
              | some st =>
                  match st.frames with
                  | fr :: _ => .stepOk fr st
                  | [] => .panicked st
              | none => .panicked st

/-- The overall outcome of `VM::run`. -/
inductive RunResult where
  | ok
  | err (e : VMError)
  | panicked
  | outOfFuel
deriving DecidableEq

/-- `VM::run`: iterate `step` until return, error, panic or fuel
exhaustion. -/
def run : Nat → (Nat → Rat) → CallFrame → VMState → VMState × RunResult
  | 0, _, _, st => (st, .outOfFuel)
  | fuel + 1, clock, frame, st =>
      match step clock frame st with
      | .stepOk frame st => run fuel clock frame st
      | .finished st => (st, .ok)
      | .failed st e => (st, .err e)
      | .panicked st => (st, .panicked)

/-- The observable outcome of `VM::interpret`. -/
inductive InterpretResult where
  | ok
  | compileError
  | runtimeError
  | panicked
  | outOfFuel
deriving DecidableEq

/-- `VM::interpret` on a freshly constructed VM: compile, push the script
function, call it and run.  `clock` is the oracle of system-clock readings
and `fuel` bounds both compilation depth and executed instructions. -/
def interpret (source : String) (clock : Nat → Rat) (fuel : Nat) :
    VMState × InterpretResult :=
  let vm := VM.new
  let (cm, compiledFunction) := CompilerManager.compile fuel source
  if cm.parser.hadError then
    ({ vm with latestError := cm.parser.errorMessage }, .compileError)
  else
    match vm.push (.function compiledFunction) with
    | none => (vm, .panicked)
    | some vm =>
        match vmCall vm compiledFunction 0 0 with
        | .err st _ => (st, .runtimeError)
        | .panicked st => (st, .panicked)
        | .ok st =>
            match st.frames with
            | [] => (st, .panicked)
            | fr :: _ =>
                match run fuel clock fr st with
                | (st, .ok) => (st, .ok)
                | (st, .err .runtimeError) => (st, .runtimeError)
                | (st, .err .compileError) => (st, .compileError)
                | (st, .panicked) => (st, .panicked)
                | (st, .outOfFuel) => (st, .outOfFuel)

/-- Whether a value is a `Number` (statement helper). -/
def Value.isNumber : Value → Bool
  | .number _ => true
  | _ => false

/-- Equality as the spec describes it after amendment: same variant with
equal payload for `Nil`, `Boolean`, `Number` and `String` (strings by
content), while every comparison whose left operand is a `Function` or
`NativeFunction` is false even when the payloads coincide, and every
cross-variant comparison is false. -/
def equalsSpecAmended : Value → Value → Bool
  | .boolean b1, .boolean b2 => b1 == b2
  | .number n1, .number n2 => decide (n1 = n2)
  | .nil, .nil => true
  | .string s1, .string s2 => s1 == s2
  | _, _ => false

/-- The primitive mutations a chunk undergoes during compilation: an
`emit_instruction` (`Chunk::write`), a `patch_jump` rewrite, or an
`add_constant`.  Execution never mutates a chunk. -/
inductive ChunkOp where
  | write (instruction : Instruction) (line : Int)
  | patch (offset : Nat)
  | addConst (value : Value)

/-- Apply one chunk mutation. -/
def ChunkOp.apply : ChunkOp → Chunk → Chunk
  | .write instruction line, c => c.write instruction line
  | .patch offset, c => c.patchJump offset
  | .addConst value, c => (c.addConstant value).1

/-- Apply a sequence of chunk mutations in order. -/
def ChunkOf.applyOps (c : Chunk) (ops : List ChunkOp) : Chunk :=
  ops.foldl (fun c op => op.apply c) c

/-- The recursion end-to-end scenario source from the spec (the test
`local_recursion_test` in `src/main.rs` runs the same program inside a
block). -/
def fibSource : String :=
  "fun fib(n) \x7b if (n < 2) return n; return fib(n-1) + fib(n-2); \x7d print fib(8);"

/-- A number-plus-string program. -/
def addStrSource : String := "print 1 + \"s\";"

/-- A program whose call of the native `clock` the compiler of this
snapshot accepts (the argument list is closed by a `{` token, which is what
`argument_list` consumes). -/
def clockSource : String := "print clock(1\x7b;"

/-- The function-declaration-without-body source from the repository's own
test `body_must_be_block_test` in `src/main.rs`. -/
def funBodySource : String := "fun f() 123;"

/-- A compiler-manager state whose current chunk already holds 256
constants. -/
def cm256 : CompilerManager :=
  { current := 0
    compilers :=
      [{ function :=
           { arity := 0
             chunk := { bytecode := [], lines := [], constants := List.replicate 256 Value.nil }
             name := "" }
         functionType := .script
         locals := []
         scopeDepth := 0 }]
    scanner := Scanner.init []
    parser := Parser.init }

/-- A function value with empty chunk (the payload of a `Value::Function`). -/
def emptyFunc : Func := Func.new

/-- C1: interpreting the recursion scenario
`fun fib(n) { if (n < 2) return n; return fib(n-1) + fib(n-2); } print fib(8);`
does not succeed with output `21`: this compiler snapshot has no `return`
statement (each `return` is parsed as an expression statement and reported
as "Expect expression.") and `argument_list` consumes a `LeftBrace` instead
of the closing `RightParen`, so `interpret` returns `CompileError`, nothing
is printed and the exposed message is "Expect ')' after arguments.". -/
theorem c1_fib_source_compile_error :
    (interpret fibSource (fun _ => 0) 200).2 = InterpretResult.compileError ∧
    (interpret fibSource (fun _ => 0) 200).1.printed = [] ∧
    (interpret fibSource (fun _ => 0) 200).1.latestError = "Expect ')' after arguments." ∧
    (CompilerManager.compile 200 fibSource).1.parser.messages =
      ["Expect expression.", "Expect expression.", "Expect ')' after arguments."] := by
  refine ⟨rfl, rfl, rfl, rfl⟩

/-- C4: `make_constant` compares the constant index cast to `u8` against
`u8::MAX`, which never holds, so a pool that already has 256 entries gets a
257th constant at index 256 with no "Too many constants in one chunk."
error reported. -/
theorem c4_constant_pool_overflow_unchecked :
    (cm256.makeConstant Value.nil).2 = 256 ∧
    (cm256.makeConstant Value.nil).1.parser.hadError = false ∧
    (cm256.makeConstant Value.nil).1.parser.messages = [] ∧
    (cm256.makeConstant Value.nil).1.currentCompiler.function.chunk.constants.length = 257 := by
  refine ⟨rfl, rfl, rfl, rfl⟩

/-- C6: on `fun f() 123;` (the repository's own `body_must_be_block_test`
input) the missing `{` before the function body is reported with the
message "Expect ')' after parameters." (the source duplicates the message
of the preceding consume), a following "Expect '}' after block." is also
reported, and the latter is what `latest_error_message` exposes; the
message "Expect '{' before function body." is never produced. -/
theorem c6_function_body_error_message :
    (CompilerManager.compile 200 funBodySource).1.parser.messages =
      ["Expect ')' after parameters.", "Expect '\x7d' after block."] ∧
    (CompilerManager.compile 200 funBodySource).1.parser.errorMessage =
      "Expect '\x7d' after block." ∧
    (interpret funBodySource (fun _ => 0) 200).2 = InterpretResult.compileError := by
  refine ⟨rfl, rfl, rfl⟩

/-- C2 counterexample: interpreting `print 1 + "s";` (a number-plus-string
program) returns `RuntimeError`, but `latest_error_message` is left at the
fresh VM's empty string, not "Operands must be numbers." — the arithmetic
arms of `OpAdd` return the error without calling `runtime_error`. -/
theorem c2_number_plus_string_counterexample :
    (interpret addStrSource (fun _ => 0) 200).2 = InterpretResult.runtimeError ∧
    (interpret addStrSource (fun _ => 0) 200).1.latestError = "" ∧
    (interpret addStrSource (fun _ => 0) 200).1.latestError ≠ "Operands must be numbers." := by
  refine ⟨rfl, rfl, ?_⟩
  intro h
  exact absurd (rfl.symm.trans h) (by decide)

/-- C7 counterexample: two `Function` values that are the same variant with
(trivially) equal payload compare unequal under `Value::equals`, because
the catch-all arm returns `false` for function operands. -/
theorem c7_function_equals_counterexample :
    Value.equals (.function emptyFunc) (.function emptyFunc) = false := rfl

/-- C9 counterexample: interpreting `print clock(1{;` (a source this
compiler accepts, whose execution invokes the native `clock`) through two
fresh VM instances whose system clocks read 0 and 1 respectively yields
different `printed_values` sequences, so the printed output is not a
function of the source text alone. -/
theorem c9_clock_nondeterminism_counterexample :
    (interpret clockSource (fun _ => 0) 200).1.printed ≠
      (interpret clockSource (fun _ => 1) 200).1.printed := by
  have h0 : (interpret clockSource (fun _ => 0) 200).1.printed = [Value.number 0] := rfl
  have h1 : (interpret clockSource (fun _ => 1) 200).1.printed = [Value.number 1] := rfl
  rw [h0, h1]
  intro h
  have h2 : Value.number 0 = Value.number 1 := by injection h
  have h3 : (0 : Rat) = 1 := by injection h2
  exact absurd h3 (by norm_num)

/-- C7: `Value::equals` coincides with the amended specification
`equalsSpecAmended` on every pair of values: same variant with equal
payload for `Nil`, `Boolean`, `Number` and `String` (strings by content),
false for every cross-variant pair, and false for every pair whose left
operand is a `Function` or `NativeFunction`, regardless of payload. -/
theorem c7_equals_characterization : ∀ v w : Value, Value.equals v w = equalsSpecAmended v w := by
  intro v w
  cases v <;> cases w <;> rfl

/-- C8: every sequence of the chunk mutations the compiler performs
(`write`, `patch_jump`, `add_constant`) preserves
`len(bytecode) = len(lines)`: writes append one entry to each parallel
array, patching rewrites in place, and constants do not touch them.
Execution never mutates a chunk, so the invariant holds at every point. -/
theorem c8_code_lines_parallel (ops : List ChunkOp) (c : Chunk)
    (h : c.bytecode.length = c.lines.length) :
    (c.applyOps ops).bytecode.length = (c.applyOps ops).lines.length := by
  induction ops generalizing c with
  | nil => simpa [ChunkOf.applyOps] using h
  | cons op ops ih =>
      have h' : (op.apply c).bytecode.length = (op.apply c).lines.length := by
        cases op <;>
          simp [ChunkOp.apply, ChunkOf.write, ChunkOf.patchJump, ChunkOf.addConstant, h]
      simpa [ChunkOf.applyOps, List.foldl_cons] using ih (op.apply c) h'

/-- Witness for C8 at a concrete chunk and mutation sequence. -/
theorem c8_code_lines_parallel_witness :
    Chunk.new.bytecode.length = Chunk.new.lines.length ∧
    (Chunk.new.applyOps
        [ChunkOp.write .opNil 1, ChunkOp.write (.opJump 0xffff) 1,
         ChunkOp.addConst .nil, ChunkOp.patch 1]).bytecode.length =
      (Chunk.new.applyOps
        [ChunkOp.write .opNil 1, ChunkOp.write (.opJump 0xffff) 1,
         ChunkOp.addConst .nil, ChunkOp.patch 1]).lines.length :=
  ⟨rfl, c8_code_lines_parallel _ Chunk.new rfl⟩

/-- C9 (amended): the interpreter's printed output is a function of the
source text and the sequence of system-clock readings: two fresh VM
instances interpreting the same source with identical clock readings
produce identical `printed_values` sequences. -/
theorem c9_printed_deterministic_given_clock (source : String) (clock1 clock2 : Nat → Rat)
    (fuel : Nat) (h : clock1 = clock2) :
    (interpret source clock1 fuel).1.printed = (interpret source clock2 fuel).1.printed := by
  rw [h]

/-- Witness for C9 (amended) at a concrete source and clock. -/
theorem c9_printed_deterministic_given_clock_witness :
    (fun _ : Nat => (0 : Rat)) = (fun _ : Nat => (0 : Rat)) ∧
    (interpret clockSource (fun _ => 0) 200).1.printed =
      (interpret clockSource (fun _ => 0) 200).1.printed :=
  ⟨rfl, c9_printed_deterministic_given_clock clockSource _ _ 200 rfl⟩

/-- `VM::call`'s frame-saving step does not change the number of frames. -/
theorem saveIp_frames_length (st : VMState) (ip : Nat) :
    (st.saveIp ip).frames.length = st.frames.length := by
  cases hf : st.frames <;> simp [VMState.saveIp, hf]

/-- `VM::call`'s frame-saving step does not change the stack top. -/
theorem saveIp_stackTop (st : VMState) (ip : Nat) :
    (st.saveIp ip).stackTop = st.stackTop := by
  cases hf : st.frames <;> simp [VMState.saveIp, hf]

/-- C5: `VM::call` on a `Function` value first checks the arity, then
errors with "Stack overflow." exactly when `len(frames)` has reached
`FRAMES_MAX = 64`, and otherwise pushes the new call frame; so a call
depth of 64 frames is allowed and the call that would create a 65th frame
raises the runtime error. -/
theorem c5_call_depth (st : VMState) (f : Func) (argCount ip : Nat)
    (hstk : argCount + 1 ≤ st.stackTop) (hinv : st.frames.length ≤ FRAMES_MAX) :
    (((argCount : Int) ≠ f.arity) →
       vmCall st f argCount ip =
         .err (st.runtimeError ("Expected " ++ toString f.arity ++ " arguments but got " ++
           toString argCount ++ ".")) .runtimeError) ∧
    (((argCount : Int) = f.arity) → st.frames.length < FRAMES_MAX →
       ∃ st', vmCall st f argCount ip = .ok st' ∧
         st'.frames.length = st.frames.length + 1 ∧
         st'.frames.head? =
           some { function := f, ip := 0, stackIndex := st.stackTop - 1 - argCount }) ∧
    (((argCount : Int) = f.arity) → ¬ st.frames.length < FRAMES_MAX →
       vmCall st f argCount ip = .err (st.runtimeError "Stack overflow.") .runtimeError) := by
  refine ⟨?_, ?_, ?_⟩
  · intro hne
    rw [vmCall, if_pos hne]
  · intro heq hlt
    rw [vmCall, if_neg (not_not_intro heq), if_neg (Nat.ne_of_lt hlt),
      if_neg (by rw [saveIp_stackTop]; omega :
        ¬ (st.saveIp ip).stackTop < argCount + 1)]
    refine ⟨_, rfl, ?_, ?_⟩
    · simp [saveIp_frames_length]
    · simp [saveIp_stackTop]
  · intro heq hge
    have hmax : st.frames.length = FRAMES_MAX := le_antisymm hinv (not_lt.mp hge)
    rw [vmCall, if_neg (not_not_intro heq), if_pos hmax]

/-- A VM state already holding `FRAMES_MAX` frames, with one stack slot in
use. -/
def wFullSt : VMState :=
  { frames := List.replicate 64 { function := Func.new, ip := 0, stackIndex := 0 }
    stack := fun _ => Value.nil
    stackTop := 1
    globals := fun _ => none
    printed := []
    latestError := ""
    clockCalls := 0 }

/-- Witness for C5: with 64 frames in place, a well-arited call raises
"Stack overflow.". -/
theorem c5_call_depth_witness :
    0 + 1 ≤ wFullSt.stackTop ∧ wFullSt.frames.length ≤ FRAMES_MAX ∧
    vmCall wFullSt Func.new 0 0 =
      .err (wFullSt.runtimeError "Stack overflow.") .runtimeError :=
  ⟨by decide, by decide,
    (c5_call_depth wFullSt Func.new 0 0 (by decide) (by decide)).2.2 rfl (by decide)⟩

/-- C10: executing `Call(n)` with a `NativeFunction` callee never checks
the native's declared arity: for every argument count `n` the host
function is invoked, the callee and all `n` arguments are removed from the
stack, the single result is pushed, and no error is raised. -/
theorem c10_native_call_no_arity_check (clock : Nat → Rat) (frame : CallFrame)
    (st : VMState) (n : Nat) (nf : NativeFunctionV)
    (hinst : frame.function.chunk.bytecode.get? frame.ip = some (.opCall n))
    (hstk : n + 1 ≤ st.stackTop) (hcap : st.stackTop ≤ STACK_MAX)
    (hcallee : st.stack (st.stackTop - 1 - n) = .nativeFunction nf) :
    ∃ st', step clock frame st = .stepOk { frame with ip := frame.ip + 1 } st' ∧
      st'.stackTop = st.stackTop - n ∧
      st'.stack (st.stackTop - (n + 1)) = nativeCall clock st.clockCalls nf.function ∧
      st'.frames = st.frames ∧ st'.globals = st.globals ∧
      st'.printed = st.printed ∧ st'.latestError = st.latestError := by
  rw [step]
  simp only [hinst]
  rw [if_neg (by omega : ¬ st.stackTop < n + 1)]
  rw [hcallee]
  simp only [VMState.push]
  rw [if_pos (by unfold STACK_MAX FRAMES_MAX at *; omega : st.stackTop - (n + 1) < STACK_MAX)]
  refine ⟨_, rfl, by simp; omega, ?_, rfl, rfl, rfl, rfl⟩
  simp [setStack]

/-- A frame whose next instruction calls its callee with two arguments. -/
def wCallFrame : CallFrame :=
  { function :=
      { arity := 0
        chunk := { bytecode := [.opCall 2], lines := [1], constants := [] }
        name := "" }
    ip := 0
    stackIndex := 0 }

/-- A VM state whose stack holds the zero-arity native `clock` and two
arguments. -/
def wCallSt : VMState :=
  { frames := [wCallFrame]
    stack := fun i =>
      if i = 0 then .nativeFunction { arity := 0, name := "clock", function := .clock }
      else if i = 1 then .number 1
      else if i = 2 then .number 2
      else .nil
    stackTop := 3
    globals := fun _ => none
    printed := []
    latestError := ""
    clockCalls := 0 }

/-- Witness for C10: calling the zero-arity `clock` with two extra
arguments succeeds. -/
theorem c10_native_call_no_arity_check_witness :
    2 + 1 ≤ wCallSt.stackTop ∧ wCallSt.stackTop ≤ STACK_MAX ∧
    ∃ st', step (fun _ => 5) wCallFrame wCallSt =
        .stepOk { wCallFrame with ip := wCallFrame.ip + 1 } st' ∧
      st'.stackTop = wCallSt.stackTop - 2 ∧
      st'.stack (wCallSt.stackTop - (2 + 1)) =
        nativeCall (fun _ => 5) wCallSt.clockCalls NativeId.clock ∧
      st'.frames = wCallSt.frames ∧ st'.globals = wCallSt.globals ∧
      st'.printed = wCallSt.printed ∧ st'.latestError = wCallSt.latestError :=
  ⟨by decide, by decide,
    c10_native_call_no_arity_check (fun _ => 5) wCallFrame wCallSt 2
      { arity := 0, name := "clock", function := .clock } rfl (by decide) (by decide) rfl⟩

/-- C3: executing `SetGlobal(k)` (with `constants[k]` the name string)
assigns the top-of-stack value to the named global exactly when the name
already exists in the globals table, leaving the assigned value on the
stack with the stack depth unchanged; on an absent name it is a runtime
error "Undefined variable 'X'." and the globals table is unchanged (the
stray-key removal removes nothing); `GetGlobal` on a missing name raises
the same error. -/
theorem c3_setglobal_semantics (clock : Nat → Rat) (frame : CallFrame) (st : VMState)
    (k : Nat) (name : String)
    (hconst : frame.function.chunk.constants.get? k = some (.string name))
    (hstk : 1 ≤ st.stackTop) :
    ((frame.function.chunk.bytecode.get? frame.ip = some (.opSetGlobal k)) →
       ((st.globals name).isSome →
          ∃ st', step clock frame st = .stepOk { frame with ip := frame.ip + 1 } st' ∧
            st'.globals name = some (st.stack (st.stackTop - 1)) ∧
            (∀ nm, nm ≠ name → st'.globals nm = st.globals nm) ∧
            st'.stackTop = st.stackTop ∧
            st'.stack (st.stackTop - 1) = st.stack (st.stackTop - 1) ∧
            st'.latestError = st.latestError) ∧
       ((st.globals name).isNone →
          ∃ st', step clock frame st = .failed st' .runtimeError ∧
            st'.latestError = "Undefined variable '" ++ name ++ "'." ∧
            (∀ nm, st'.globals nm = st.globals nm))) ∧
    ((frame.function.chunk.bytecode.get? frame.ip = some (.opGetGlobal k)) →
       (st.globals name).isNone →
          ∃ st', step clock frame st = .failed st' .runtimeError ∧
            st'.latestError = "Undefined variable '" ++ name ++ "'." ∧
            (∀ nm, st'.globals nm = st.globals nm)) := by
  refine ⟨fun hinst => ⟨fun hsome => ?_, fun hnone => ?_⟩, fun hinst hnone => ?_⟩
  · rw [step]
    simp only [hinst, hconst]
    rw [if_neg (fun hc =>
      (Option.isSome_iff_ne_none.mp hsome) (Option.isNone_iff_eq_none.mp hc))]
    rw [if_neg (by omega : ¬ st.stackTop = 0)]
    refine ⟨_, rfl, ?_, ?_, rfl, rfl, rfl⟩
    · simp [VMState.insertGlobal]
    · intro nm hnm
      simp [VMState.insertGlobal, hnm]
  · rw [step]
    simp only [hinst, hconst]
    rw [if_pos hnone]
    refine ⟨_, rfl, rfl, ?_⟩
    intro nm
    by_cases hnm : nm = name
    · subst hnm
      simp only [Option.isNone_iff_eq_none] at hnone
      simp [VMState.runtimeError, VMState.resetStack, VMState.removeGlobal, hnone]
    · simp [VMState.runtimeError, VMState.resetStack, VMState.removeGlobal, hnm]
  · rw [step]
    simp only [hinst, hconst]
    have hn : st.globals name = none := Option.isNone_iff_eq_none.mp hnone
    rw [hn]
    exact ⟨_, rfl, rfl, fun nm => rfl⟩

/-- A frame whose next instruction assigns the global named `a`. -/
def wSetFrame : CallFrame :=
  { function :=
      { arity := 0
        chunk := { bytecode := [.opSetGlobal 0], lines := [1], constants := [.string "a"] }
        name := "" }
    ip := 0
    stackIndex := 0 }

/-- A VM state where the global `a` is defined and the value `7` is on top
of the stack. -/
def wSetSt : VMState :=
  { frames := [wSetFrame]
    stack := fun i => if i = 0 then .number 7 else .nil
    stackTop := 1
    globals := fun n => if n = "a" then some Value.nil else none
    printed := []
    latestError := ""
    clockCalls := 0 }

/-- Witness for C3: assigning an existing global succeeds and leaves the
value on the stack. -/
theorem c3_setglobal_semantics_witness :
    1 ≤ wSetSt.stackTop ∧ (wSetSt.globals "a").isSome = true ∧
    ∃ st', step (fun _ => 0) wSetFrame wSetSt =
        .stepOk { wSetFrame with ip := wSetFrame.ip + 1 } st' ∧
      st'.globals "a" = some (wSetSt.stack (wSetSt.stackTop - 1)) ∧
      (∀ nm, nm ≠ "a" → st'.globals nm = wSetSt.globals nm) ∧
      st'.stackTop = wSetSt.stackTop ∧
      st'.stack (wSetSt.stackTop - 1) = wSetSt.stack (wSetSt.stackTop - 1) ∧
      st'.latestError = wSetSt.latestError :=
  ⟨by decide, by decide,
    ((c3_setglobal_semantics (fun _ => 0) wSetFrame wSetSt 0 "a" rfl (by decide)).1
      rfl).1 (by decide)⟩

/-- C2 (amended): executing `Add` dispatches on the left operand: with a
`Number` left operand and a non-`Number` right operand the step fails with
`RuntimeError` while `latest_error_message` (and the rest of the
observable state) is left unchanged — no "Operands must be numbers."
message is recorded; two numbers push their sum and two strings push their
concatenation. -/
theorem c2_add_semantics (clock : Nat → Rat) (frame : CallFrame) (st : VMState)
    (hinst : frame.function.chunk.bytecode.get? frame.ip = some .opAdd)
    (hstk : 2 ≤ st.stackTop) (hcap : st.stackTop ≤ STACK_MAX) :
    (∀ x w, st.stack (st.stackTop - 2) = .number x →
       st.stack (st.stackTop - 1) = w → w.isNumber = false →
       ∃ st', step clock frame st = .failed st' .runtimeError ∧
         st'.latestError = st.latestError ∧ st'.globals = st.globals ∧
         st'.printed = st.printed) ∧
    (∀ x y, st.stack (st.stackTop - 2) = .number x →
       st.stack (st.stackTop - 1) = .number y →
       ∃ st', step clock frame st = .stepOk { frame with ip := frame.ip + 1 } st' ∧
         st'.stackTop = st.stackTop - 1 ∧
         st'.stack (st.stackTop - 2) = .number (x + y) ∧
         st'.latestError = st.latestError) ∧
    (∀ s1 s2, st.stack (st.stackTop - 2) = .string s1 →
       st.stack (st.stackTop - 1) = .string s2 →
       ∃ st', step clock frame st = .stepOk { frame with ip := frame.ip + 1 } st' ∧
         st'.stackTop = st.stackTop - 1 ∧
         st'.stack (st.stackTop - 2) = .string (s1 ++ s2) ∧
         st'.latestError = st.latestError) := by
  have hne : st.stackTop - 2 ≠ st.stackTop - 1 := by omega
  have hsub : st.stackTop - 1 - 1 = st.stackTop - 2 := by omega
  have h0 : ¬ st.stackTop = 0 := by omega
  have h1' : ¬ st.stackTop - 1 = 0 := by omega
  have hpush : st.stackTop - 2 < STACK_MAX := by
    unfold STACK_MAX FRAMES_MAX at *
    omega
  refine ⟨?_, ?_, ?_⟩
  · intro x w hx hw hnum
    rw [step]
    simp only [hinst, VMState.pop]
    rw [if_neg h0]
    dsimp only
    rw [if_neg h1']
    dsimp only [setStack]
    rw [hsub, if_neg hne, hx, hw]
    cases w with
    | number y => simp [Value.isNumber] at hnum
    | boolean b => exact ⟨_, rfl, rfl, rfl, rfl⟩
    | nil => exact ⟨_, rfl, rfl, rfl, rfl⟩
    | string s => exact ⟨_, rfl, rfl, rfl, rfl⟩
    | function f => exact ⟨_, rfl, rfl, rfl, rfl⟩
    | nativeFunction f => exact ⟨_, rfl, rfl, rfl, rfl⟩
  · intro x y hx hy
    rw [step]
    simp only [hinst, VMState.pop]
    rw [if_neg h0]
    dsimp only
    rw [if_neg h1']
    dsimp only [setStack]
    rw [hsub, if_neg hne, hx, hy]
    simp only [Value.isString, binaryArithmeticOp, VMState.push]
    rw [if_pos hpush]
    refine ⟨_, rfl, by dsimp only; omega, ?_, rfl⟩
    simp [setStack]
  · intro s1 s2 hx hy
    rw [step]
    simp only [hinst, VMState.pop]
    rw [if_neg h0]
    dsimp only
    rw [if_neg h1']
    dsimp only [setStack]
    rw [hsub, if_neg hne, hx, hy]
    simp only [Value.isString, Value.concatenateStrings, VMState.push]
    rw [if_pos hpush]
    refine ⟨_, rfl, by dsimp only; omega, ?_, rfl⟩
    simp [setStack]

/-- A frame whose next instruction is `Add`. -/
def wAddFrame : CallFrame :=
  { function :=
      { arity := 0
        chunk := { bytecode := [.opAdd], lines := [1], constants := [] }
        name := "" }
    ip := 0
    stackIndex := 0 }

/-- A VM state whose stack holds the number `1` under the string `"s"`. -/
def wAddSt : VMState :=
  { frames := [wAddFrame]
    stack := fun i => if i = 0 then .number 1 else if i = 1 then .string "s" else .nil
    stackTop := 2
    globals := fun _ => none
    printed := []
    latestError := ""
    clockCalls := 0 }

/-- Witness for C2 (amended): adding a number and a string fails with
`RuntimeError` and leaves `latest_error_message` unchanged. -/
theorem c2_add_semantics_witness :
    2 ≤ wAddSt.stackTop ∧ wAddSt.stackTop ≤ STACK_MAX ∧
    ∃ st', step (fun _ => 0) wAddFrame wAddSt = .failed st' .runtimeError ∧
      st'.latestError = wAddSt.latestError ∧ st'.globals = wAddSt.globals ∧
      st'.printed = wAddSt.printed :=
  ⟨by decide, by decide,
    (c2_add_semantics (fun _ => 0) wAddFrame wAddSt rfl (by decide) (by decide)).1
      1 (.string "s") rfl rfl rfl⟩

end RLox
